import Mathlib

/-!
# Verification of the dunnart connection-lifecycle and discovery engine

A shallow embedding, in Lean 4, of the core of `dunnart.go` and of the WAN
module (`wan.go`): the Home-Assistant discovery builder (`newDiscovery`,
`normalise_config`), the sync orchestrator's per-connection-event handler,
the birth-message handler, `initialConnect`, the module resolution loop of
`main`, and the WAN module's `RefreshLink` / `RefreshIP` delta-publish logic.

Go maps `map[string]interface{}` are embedded as association lists of
`String × JVal` where `JVal` mirrors the JSON-serialisable values the
program actually stores (strings, nested objects, arrays).  Mutation of a
Go map is embedded as explicit state passing: a function that mutates its
map argument returns the post-state of that map.
-/

namespace Dunnart

/-- JSON-style values stored in a discovery config map
(`map[string]interface{}` in the Go source). -/
inductive JVal where
  | str (s : String)
  | obj (kvs : List (String × JVal))
  | arr (vs : List JVal)

/-- Go comparison of an `interface{}` map entry against a string literal
(`cfg["state_topic"] == "~"`): true exactly when the entry is present,
holds a string, and that string is equal; an absent key (nil interface)
or a non-string value compares unequal. -/
def eqStrVal (v : Option JVal) (s : String) : Bool :=
  match v with
  | some (JVal.str s') => s' = s
  | _ => false

/-- Association-list map: Go `cfg[k]` read (returns `none` when absent). -/
def lookupKey (m : List (String × JVal)) (k : String) : Option JVal :=
  match m with
  | [] => none
  | (k', v) :: rest => if k' = k then some v else lookupKey rest k

/-- Go `cfg[k] = v`: replace the binding when the key exists, else append. -/
def setKey (m : List (String × JVal)) (k : String) (v : JVal) :
    List (String × JVal) :=
  match m with
  | [] => [(k, v)]
  | (k', v') :: rest =>
    if k' = k then (k', v) :: rest else (k', v') :: setKey rest k v

/-- Go `delete(cfg, k)`. -/
def eraseKey (m : List (String × JVal)) (k : String) : List (String × JVal) :=
  match m with
  | [] => []
  | (k', v') :: rest =>
    if k' = k then eraseKey rest k else (k', v') :: eraseKey rest k

/-- `config_contains` from dunnart.go: `_, ok := cfg[key]`. -/
def config_contains (cfg : List (String × JVal)) (key : String) : Bool :=
  (lookupKey cfg key).isSome

/-- The base-field merge loop of `normalise_config`:
`for k, v := range baseCfg { if _, exists := cfg[k]; !exists { cfg[k] = v } }`. -/
def mergeBase (cfg baseCfg : List (String × JVal)) : List (String × JVal) :=
  baseCfg.foldl
    (fun m kv => if (lookupKey m kv.1).isSome then m else setKey m kv.1 kv.2)
    cfg

/-- The availability-defaulting and self-reference-dropping steps of
`normalise_config`, applied after the base-field merge. -/
def availabilitySteps (cfg : List (String × JVal)) : List (String × JVal) :=
  let cfg :=
    if !config_contains cfg "availability_topic" &&
        !config_contains cfg "availability" then
      setKey cfg "availability_topic" (JVal.str "~")
    else cfg
  if eqStrVal (lookupKey cfg "state_topic") "~" then
    eraseKey cfg "availability_topic"
  else cfg

/-- The post-state of the (mutated) config map after `normalise_config`
has run its merge, availability defaulting and self-reference drop. -/
def normalisePost (cfg baseCfg : List (String × JVal)) :
    List (String × JVal) :=
  availabilitySteps (mergeBase cfg baseCfg)

/-- Minimal JSON string escaping (quote and backslash); none of the strings
the program stores in discovery configs contains a character Go's
`json.Marshal` would escape beyond these. -/
def escapeJSON (s : String) : String :=
  s.foldl
    (fun acc c =>
      if c = '"' then acc ++ "\\\""
      else if c = '\\' then acc ++ "\\\\"
      else acc.push c)
    ""

mutual

/-- Serialisation of a `JVal` to a JSON string, modelling Go's
`json.Marshal` on the values the program builds.  (`json.Marshal` emits
object members in sorted-key order; the embedding emits them in the
association list's order, a fixed deterministic choice that represents the
same key-to-value object.) -/
def serializeVal : JVal → String
  | JVal.str s => "\"" ++ escapeJSON s ++ "\""
  | JVal.obj kvs => "\x7b" ++ serializeKVs kvs ++ "\x7d"
  | JVal.arr vs => "[" ++ serializeArr vs ++ "]"

/-- Serialise the members of a JSON object, comma separated. -/
def serializeKVs : List (String × JVal) → String
  | [] => ""
  | [(k, v)] => "\"" ++ escapeJSON k ++ "\":" ++ serializeVal v
  | (k, v) :: kv' :: rest =>
    "\"" ++ escapeJSON k ++ "\":" ++ serializeVal v ++ "," ++
      serializeKVs (kv' :: rest)

/-- Serialise the elements of a JSON array, comma separated. -/
def serializeArr : List JVal → String
  | [] => ""
  | [v] => serializeVal v
  | v :: v' :: rest => serializeVal v ++ "," ++ serializeArr (v' :: rest)

end

/-- `normalise_config` from dunnart.go, as a pure function: takes the
entity config map and the base config map, returns the post-state of the
(mutated in place, in Go) entity config map together with the JSON string
that the function returns. -/
def normalise_config (cfg baseCfg : List (String × JVal)) :
    List (String × JVal) × String :=
  let post := normalisePost cfg baseCfg
  (post, serializeVal (JVal.obj post))

/-- `EntityConfig` from dunnart.go (`class` is a Lean keyword, hence `cls`). -/
structure EntityConfig where
  name : String
  cls : String
  config : List (String × JVal)

/-- The entity unique id computed inside `newDiscovery`:
`euid := uid; if len(modName) > 0 { euid += "-" + modName }; euid += "-" + entity.name`. -/
def entityUid (uid modName entityName : String) : String :=
  let euid := uid
  let euid := if modName.length > 0 then euid ++ "-" ++ modName else euid
  euid ++ "-" ++ entityName

/-- The object id computed inside `newDiscovery`:
`strings.Join([]string{nodeId, modName, entity.name}, "_")`. -/
def entityObjectId (nodeId modName entityName : String) : String :=
  String.intercalate "_" [nodeId, modName, entityName]

/-- The discovery topic computed inside `newDiscovery`:
`strings.Join([]string{prefix, entity.class, euid, "config"}, "/")`. -/
def entityTopic (pfx cls euid : String) : String :=
  String.intercalate "/" [pfx, cls, euid, "config"]

/-- The static part of `baseCfg` built in `newDiscovery` before the module
loop: base topic alias and device block. -/
def staticBaseCfg (baseTopic nodeId mac : String) : List (String × JVal) :=
  [("~", JVal.str baseTopic),
   ("device", JVal.obj
     [("name", JVal.str nodeId),
      ("connections", JVal.arr [JVal.arr [JVal.str "mac", JVal.str mac]])])]

/-- The `baseCfg` map as it stands when `normalise_config` is called for
one entity: the static base with `unique_id` and `object_id` assigned for
this entity (in Go the same map is reassigned on every loop iteration;
both keys are written before each use, so the per-entity value is this). -/
def entityBaseCfg (baseTopic nodeId mac euid objId : String) :
    List (String × JVal) :=
  setKey (setKey (staticBaseCfg baseTopic nodeId mac)
    "unique_id" (JVal.str euid)) "object_id" (JVal.str objId)

/-- A module as the discovery builder sees it: its registered name and the
`EntityConfig` list its `Config()` returns (modules that do not implement
`Discoverable` simply do not appear). -/
structure DiscoModule where
  name : String
  entities : List EntityConfig

/-- The `(topic, payload)` discovery entry `newDiscovery` builds for one
entity of one module, including the `{{.NodeId}}` template substitution. -/
def discoveryEntry (pfx uid nodeId baseTopic mac modName : String)
    (e : EntityConfig) : String × String :=
  let euid := entityUid uid modName e.name
  let topic := entityTopic pfx e.cls euid
  let base := entityBaseCfg baseTopic nodeId mac euid
    (entityObjectId nodeId modName e.name)
  let payload := (normalise_config e.config base).2
  (topic, payload.replace "\x7b\x7b.NodeId\x7d\x7d" nodeId)

/-- All `(topic, payload)` pairs `newDiscovery` generates, in generation
order, for a given iteration order of the module map. -/
def discoveryEntries (pfx uid nodeId baseTopic mac : String)
    (mods : List DiscoModule) : List (String × String) :=
  (mods.map (fun m =>
    m.entities.map (discoveryEntry pfx uid nodeId baseTopic mac m.name))).flatten

/-- Go string-keyed map insertion for the `ents` map (overwrites an
existing binding). -/
def setKeyS (m : List (String × String)) (k v : String) :
    List (String × String) :=
  match m with
  | [] => [(k, v)]
  | (k', v') :: rest =>
    if k' = k then (k', v) :: rest else (k', v') :: setKeyS rest k v

/-- Read from the `ents` map. -/
def lookupKeyS (m : List (String × String)) (k : String) : Option String :=
  match m with
  | [] => none
  | (k', v) :: rest => if k' = k then some v else lookupKeyS rest k

/-- `newDiscovery` from dunnart.go: folds every generated entry into the
`ents` map (`ents[topic] = config`), skipping everything when the
discovery prefix is empty. -/
def newDiscovery (pfx uid nodeId baseTopic mac : String)
    (mods : List DiscoModule) : List (String × String) :=
  if pfx.length > 0 then
    (discoveryEntries pfx uid nodeId baseTopic mac mods).foldl
      (fun ents tp => setKeyS ents tp.1 tp.2) []
  else []

/-! ## Module entity configs (from `Dunnart.Config` and `WAN.Config`) -/

/-- The root module's single `status` entity config (`Dunnart.Config`). -/
def dunnartEntities : List EntityConfig :=
  [⟨"status", "binary_sensor",
    [("name", JVal.str "status"),
     ("object_id", JVal.str "\x7b\x7b.NodeId\x7d\x7d_status"),
     ("state_topic", JVal.str "~"),
     ("device_class", JVal.str "connectivity"),
     ("payload_on", JVal.str "online"),
     ("payload_off", JVal.str "offline")]⟩]

/-- `WAN.Config` from wan.go, for a given choice of enabled entities. -/
def wanEntities (link ip : Bool) : List EntityConfig :=
  (if link then
    [(⟨"link", "binary_sensor",
      [("name", JVal.str "WAN"),
       ("state_topic", JVal.str "~/wan"),
       ("device_class", JVal.str "connectivity"),
       ("payload_on", JVal.str "online"),
       ("payload_off", JVal.str "offline")]⟩ : EntityConfig)]
  else []) ++
  (if ip then
    [(⟨"ip", "sensor",
      [("name", JVal.str "WAN IP"),
       ("state_topic", JVal.str "~/wan/ip")] ++
      (if link then
        [("availability", JVal.arr
          [JVal.obj [("topic", JVal.str "~")],
           JVal.obj [("topic", JVal.str "~/wan")]]),
         ("availability_mode", JVal.str "all")]
      else [])⟩ : EntityConfig)]
  else [])

/-! ## WAN refresh logic (from wan.go) -/

/-- `onlineString` from wan.go. -/
def onlineString (online : Bool) : String :=
  if online then "online" else "offline"

/-- The WAN module's sensor state relevant to its refresh methods. -/
structure WAN where
  online : Bool
  ip : String

/-- `WAN.RefreshLink` from wan.go, with the probed link status (`getLink()`)
as an input: returns the new state and the publishes performed (pairs of
subtopic and payload). -/
def RefreshLink (w : WAN) (probed : Bool) (forced : Bool) :
    WAN × List (String × String) :=
  if w.online ≠ probed ∨ forced then
    let w' : WAN := { w with online := probed }
    (w', [("", onlineString w'.online)])
  else (w, [])

/-- `WAN.RefreshIP` from wan.go, with the probed address (`getIP()`) as an
input. -/
def RefreshIP (w : WAN) (probed : String) (forced : Bool) :
    WAN × List (String × String) :=
  if w.ip ≠ probed ∨ forced then
    let w' : WAN := { w with ip := probed }
    (w', [("/ip", w'.ip)])
  else (w, [])

/-! ## Orchestrator (from `main` in dunnart.go) -/

/-- The observable steps the orchestrator's connection-event handler and
birth-message handler perform, in order. -/
inductive Action where
  | discoPub (topic payload : String)
  | syncMod (name : String) (bindingTopic : String)
  | subBirth (topic : String)
  | wait (d : Nat)
  | pubMod (name : String)
  deriving DecidableEq, Repr

/-- `Discovery.advertise`: publish every cached discovery entry. -/
def advertiseActions (ents : List (String × String)) : List Action :=
  ents.map (fun tp => Action.discoPub tp.1 tp.2)

/-- The PubSub binding topic the orchestrator builds for a module:
`t := baseTopic; if len(modName) > 0 { t += "/" + modName }`. -/
def moduleBindingTopic (baseTopic modName : String) : String :=
  let t := baseTopic
  if modName.length > 0 then t ++ "/" ++ modName else t

/-- The body of the birth-message subscription handler in `main`: on
payload "online", re-advertise, sleep the settle delay, publish every
module; otherwise do nothing. -/
def birthMessageActions (payload : String) (ents : List (String × String))
    (modNames : List String) (sdelay : Nat) : List Action :=
  if payload = "online" then
    advertiseActions ents ++ [Action.wait sdelay] ++
      modNames.map Action.pubMod
  else []

/-- The body of the orchestrator loop in `main` for one connection event:
advertise, rebind-and-sync every module, subscribe to the birth topic,
sleep the settle delay, publish every module.  `modNames` is the iteration
order of the `ss` map (the registered module names, the root module's
empty name included). -/
def connectEventActions (ents : List (String × String))
    (modNames : List String) (baseTopic habmTopic : String) (sdelay : Nat) :
    List Action :=
  advertiseActions ents ++
    modNames.map (fun m => Action.syncMod m (moduleBindingTopic baseTopic m)) ++
    [Action.subBirth habmTopic] ++
    [Action.wait sdelay] ++
    modNames.map Action.pubMod

/-! ## Initial connection (from `connect` / `initialConnect` in dunnart.go) -/

/-- The outcome of one `connect(mc, done)` call: the token completed with
no error, completed with an error, or the `done` channel was closed first. -/
inductive Attempt where
  | success
  | failure (msg : String)
  | cancelled

/-- An event in the trace of `initialConnect`: a connection attempt, a
logged failure, or a wait on the 5-second retry ticker. -/
inductive CEvent where
  | attempt
  | logFailure (msg : String)
  | wait (seconds : Nat)
  deriving DecidableEq, Repr

/-- `initialConnect` from dunnart.go, over a stream of attempt outcomes:
the first `connect` call's outcome is the head; on an error the failure is
logged and the 5-second ticker drives another attempt; a nil return
(success, or `done` closed) returns.  Produces the event trace and whether
the function returned within the supplied outcomes (`false` means it was
still retrying when the modelled stream ran out). -/
def initialConnect : List Attempt → List CEvent × Bool
  | [] => ([], false)
  | Attempt.success :: _ => ([CEvent.attempt], true)
  | Attempt.cancelled :: _ => ([CEvent.attempt], true)
  | Attempt.failure msg :: rest =>
    let (tr, fin) := initialConnect rest
    (CEvent.attempt :: CEvent.logFailure msg :: CEvent.wait 5 :: tr, fin)

/-! ## Module resolution (from the module loop in `main`) -/

/-- A configuration getter: a flat string-keyed key/value source
(one layer of a warthog618/config stack). -/
def Getter := List (String × String)

/-- Key lookup in one getter. -/
def getterLookup (g : Getter) (k : String) : Option String :=
  match g with
  | [] => none
  | (k', v) :: rest => if k' = k then some v else getterLookup rest k

/-- Lookup in a getter stack: getters are searched in order and the first
one that has the key wins (warthog618/config `Stack` semantics; `Append`
adds a getter at the end, i.e. at lowest priority). -/
def stackLookup (stack : List Getter) (k : String) : Option String :=
  match stack with
  | [] => none
  | g :: rest =>
    match getterLookup g k with
    | some v => some v
    | none => stackLookup rest k

/-- The per-module config stack built by the module loop in `main`:
`modCfg := cfg.GetConfig(modName); if defCfg != nil { modCfg.Append(defCfg) }`
where `defCfg` holds the global `period` when it is set and non-empty. -/
def moduleConfigStack (modSection : Getter) (globalPeriod : Option String) :
    List Getter :=
  match globalPeriod with
  | some p =>
    if p.length > 0 then [modSection, [("period", p)]] else [modSection]
  | none => [modSection]

/-- The config stack a module factory such as `newWAN` sees after it has
appended its own defaults (`cfg.Append(defCfg)` in the factory). -/
def factoryConfigStack (modSection : Getter) (globalPeriod : Option String)
    (factoryDefaults : Getter) : List Getter :=
  moduleConfigStack modSection globalPeriod ++ [factoryDefaults]

/-- The module loop of `main`: instantiate the listed modules in order,
failing (`log.Fatalf`) on the first unknown name.  The instantiated module
is represented by its name paired with the config stack its factory
received. -/
def resolveModules (names : List String) (known : String → Bool)
    (sections : String → Getter) (globalPeriod : Option String) :
    Option (List (String × List Getter)) :=
  match names with
  | [] => some []
  | n :: rest =>
    if known n then
      (resolveModules rest known sections globalPeriod).map
        (fun tail => (n, moduleConfigStack (sections n) globalPeriod) :: tail)
    else none

/-! ## Helper lemmas on the map operations -/

theorem lookupKey_setKey_self (m : List (String × JVal)) (k : String)
    (v : JVal) : lookupKey (setKey m k v) k = some v := by
  induction m with
  | nil => simp [setKey, lookupKey]
  | cons kv rest ih =>
    by_cases h : kv.1 = k <;> simp [setKey, lookupKey, h, ih]

theorem lookupKey_setKey_ne (m : List (String × JVal)) (k k' : String)
    (v : JVal) (h : k' ≠ k) : lookupKey (setKey m k' v) k = lookupKey m k := by
  induction m with
  | nil => simp [setKey, lookupKey, h]
  | cons kv rest ih =>
    by_cases hk : kv.1 = k'
    · simp [setKey, lookupKey, hk, h]
    · simp [setKey, lookupKey, hk, ih]

theorem lookupKey_eraseKey_self (m : List (String × JVal)) (k : String) :
    lookupKey (eraseKey m k) k = none := by
  induction m with
  | nil => simp [eraseKey, lookupKey]
  | cons kv rest ih =>
    by_cases h : kv.1 = k <;> simp [eraseKey, lookupKey, h, ih]

theorem lookupKey_eraseKey_ne (m : List (String × JVal)) (k k' : String)
    (h : k' ≠ k) : lookupKey (eraseKey m k') k = lookupKey m k := by
  induction m with
  | nil => simp [eraseKey, lookupKey]
  | cons kv rest ih =>
    by_cases hk : kv.1 = k'
    · subst hk; simp [eraseKey, lookupKey, h, ih, Ne.symm h]
    · simp [eraseKey, lookupKey, hk, ih]

theorem mergeBase_nil (cfg : List (String × JVal)) : mergeBase cfg [] = cfg :=
  rfl

theorem mergeBase_cons (cfg : List (String × JVal)) (kv : String × JVal)
    (rest : List (String × JVal)) :
    mergeBase cfg (kv :: rest) =
      mergeBase (if (lookupKey cfg kv.1).isSome then cfg
        else setKey cfg kv.1 kv.2) rest := by
  by_cases hs : (lookupKey cfg kv.1).isSome <;> simp [mergeBase, hs]

/-- The merge loop never overwrites a key the entity config already binds. -/
theorem mergeBase_preserves (cfg base : List (String × JVal)) (k : String)
    (v : JVal) (h : lookupKey cfg k = some v) :
    lookupKey (mergeBase cfg base) k = some v := by
  induction base generalizing cfg with
  | nil => simpa [mergeBase_nil] using h
  | cons kv rest ih =>
    rw [mergeBase_cons]
    by_cases hs : (lookupKey cfg kv.1).isSome
    · rw [if_pos hs]; exact ih cfg h
    · rw [if_neg hs]
      by_cases hk : kv.1 = k
      · subst hk; simp [h] at hs
      · exact ih _ (by rw [lookupKey_setKey_ne _ _ _ _ hk]; exact h)

/-- A key the entity config does not bind resolves, after the merge, to its
first binding in the base config. -/
theorem mergeBase_absent (cfg base : List (String × JVal)) (k : String)
    (h : lookupKey cfg k = none) :
    lookupKey (mergeBase cfg base) k = lookupKey base k := by
  induction base generalizing cfg with
  | nil => simpa [mergeBase_nil, lookupKey] using h
  | cons kv rest ih =>
    rw [mergeBase_cons]
    by_cases hk : kv.1 = k
    · subst hk
      have hs : ¬(lookupKey cfg kv.1).isSome := by simp [h]
      rw [if_neg hs]
      rw [mergeBase_preserves _ rest kv.1 kv.2 (lookupKey_setKey_self ..)]
      simp [lookupKey]
    · have htail : lookupKey (kv :: rest) k = lookupKey rest k := by
        simp [lookupKey, hk]
      rw [htail]
      by_cases hs : (lookupKey cfg kv.1).isSome
      · rw [if_pos hs]; exact ih cfg h
      · rw [if_neg hs]
        exact ih _ (by rw [lookupKey_setKey_ne _ _ _ _ hk]; exact h)

theorem length_pos_iff_ne_empty (s : String) : s.length > 0 ↔ s ≠ "" := by
  constructor
  · intro h he; subst he; simp at h
  · intro h
    cases s with
    | mk l =>
      cases l with
      | nil => simp at h
      | cons c cs => simp [String.length]

/-! ## Spec-side formulas for the discovery identifiers (C3) -/

/-- The unique id as the spec words it:
`{uid}-{moduleName?}-{entityName}`, module segment omitted when empty. -/
def specUniqueId (uid modName entityName : String) : String :=
  uid ++ (if modName ≠ "" then "-" ++ modName else "") ++ "-" ++ entityName

/-- The object id as the spec words it: `{nodeId}_{moduleName}_{entityName}`. -/
def specObjectId (nodeId modName entityName : String) : String :=
  nodeId ++ "_" ++ modName ++ "_" ++ entityName

/-- The discovery topic as the spec words it:
`{prefix}/{entityClass}/{uniqueId}/config`. -/
def specDiscoveryTopic (pfx cls euid : String) : String :=
  pfx ++ "/" ++ cls ++ "/" ++ euid ++ "/config"

/-- C3: for every discoverable module and every EntityConfig it returns,
the discovery builder computes the unique id as the configured uid, then
"-" plus the module name only when the module name is non-empty, then "-"
plus the entity name; the object id as the node id, module name and entity
name joined with "_"; and the discovery topic as the prefix, entity class,
unique id and the literal segment "config" joined with "/". -/
theorem discovery_identifier_computation
    (pfx uid nodeId baseTopic mac modName : String) (e : EntityConfig) :
    entityUid uid modName e.name = specUniqueId uid modName e.name ∧
    entityObjectId nodeId modName e.name = specObjectId nodeId modName e.name ∧
    entityTopic pfx e.cls (entityUid uid modName e.name) =
      specDiscoveryTopic pfx e.cls (specUniqueId uid modName e.name) ∧
    (discoveryEntry pfx uid nodeId baseTopic mac modName e).1 =
      specDiscoveryTopic pfx e.cls (specUniqueId uid modName e.name) := by
  have huid : entityUid uid modName e.name = specUniqueId uid modName e.name := by
    by_cases h : modName = ""
    · subst h; simp [entityUid, specUniqueId]
    · have hl : modName.length > 0 := (length_pos_iff_ne_empty modName).mpr h
      simp [entityUid, specUniqueId, h, hl, String.append_assoc]
  have hobj : entityObjectId nodeId modName e.name =
      specObjectId nodeId modName e.name := by
    simp [entityObjectId, specObjectId, String.intercalate,
      String.intercalate.go, String.append_assoc]
  have htop : ∀ u, entityTopic pfx e.cls u = specDiscoveryTopic pfx e.cls u := by
    intro u
    simp [entityTopic, specDiscoveryTopic, String.intercalate,
      String.intercalate.go, String.append_assoc]
  refine ⟨huid, hobj, by rw [htop, huid], ?_⟩
  show entityTopic pfx e.cls (entityUid uid modName e.name) = _
  rw [htop, huid]

/-- C2: with `forced=false` a WAN refresh publishes exactly when the newly
probed value differs from the stored value (and then publishes the new
value once); with `forced=true` it publishes unconditionally; two
consecutive unforced refreshes that observe the same underlying value
publish at most once in total. -/
theorem wan_refresh_delta (w : WAN) (b : Bool) (s : String) :
    ((RefreshLink w b false).2 ≠ [] ↔ b ≠ w.online) ∧
    (RefreshLink w b true).2 = [("", onlineString b)] ∧
    (RefreshLink (RefreshLink w b false).1 b false).2 = [] ∧
    (RefreshLink w b false).2.length ≤ 1 ∧
    ((RefreshIP w s false).2 ≠ [] ↔ s ≠ w.ip) ∧
    (RefreshIP w s true).2 = [("/ip", s)] ∧
    (RefreshIP (RefreshIP w s false).1 s false).2 = [] ∧
    (RefreshIP w s false).2.length ≤ 1 := by
  refine ⟨?_, ?_, ?_, ?_, ?_, ?_, ?_, ?_⟩
  · by_cases h : w.online = b <;> simp [RefreshLink, h, Ne.symm, eq_comm]
  · simp [RefreshLink, onlineString]
  · by_cases h : w.online = b <;> simp [RefreshLink, h]
  · by_cases h : w.online = b <;> simp [RefreshLink, h]
  · by_cases h : w.ip = s <;> simp [RefreshIP, h, Ne.symm, eq_comm]
  · simp [RefreshIP]
  · by_cases h : w.ip = s <;> simp [RefreshIP, h]
  · by_cases h : w.ip = s <;> simp [RefreshIP, h]

/-- C7: `initialConnect` retries failed connection attempts on the fixed
5-second ticker, logging each failure, and returns at the first attempt
whose `connect` call reports no error — either a successful connection or
the shutdown signal (`done`), the latter being returned without logging an
error and without consuming any further attempt. -/
theorem initialConnect_retry_until_success_or_shutdown
    (fails : List String) (rest : List Attempt) :
    initialConnect (fails.map Attempt.failure ++ Attempt.success :: rest) =
      (fails.flatMap
        (fun m => [CEvent.attempt, CEvent.logFailure m, CEvent.wait 5]) ++
        [CEvent.attempt], true) ∧
    initialConnect (fails.map Attempt.failure ++ Attempt.cancelled :: rest) =
      (fails.flatMap
        (fun m => [CEvent.attempt, CEvent.logFailure m, CEvent.wait 5]) ++
        [CEvent.attempt], true) := by
  induction fails with
  | nil => simp [initialConnect]
  | cons m ms ih => simp [initialConnect, ih.1, ih.2]

/-- C8: the birth-message handler, on payload exactly "online", republishes
every cached discovery entry, waits the settle delay, then publishes every
registered module, in that order; on any other payload it does nothing. -/
theorem birth_message_handler (payload : String)
    (ents : List (String × String)) (modNames : List String) (sdelay : Nat) :
    birthMessageActions "online" ents modNames sdelay =
      ents.map (fun tp => Action.discoPub tp.1 tp.2) ++
        [Action.wait sdelay] ++ modNames.map Action.pubMod ∧
    (payload ≠ "online" →
      birthMessageActions payload ents modNames sdelay = []) := by
  constructor
  · simp [birthMessageActions, advertiseActions]
  · intro h; simp [birthMessageActions, h]

/-- Witness for C8 at a concrete non-"online" payload. -/
theorem birth_message_handler_witness :
    birthMessageActions "offline" [("t", "p")] [""] 3 = [] :=
  (birth_message_handler "offline" [("t", "p")] [""] 3).2 (by decide)

/-- C1: on a connection event the orchestrator publishes every cached
discovery entry, then for every registered module (the root module's empty
name included) builds a fresh binding on the base topic — plus "/" plus
the module name when the name is non-empty — and syncs the module, then
subscribes to the birth-message topic, then waits the settle delay and
publishes every module. -/
theorem connect_event_order (ents : List (String × String))
    (modNames : List String) (baseTopic habmTopic : String) (sdelay : Nat) :
    connectEventActions ents modNames baseTopic habmTopic sdelay =
      ents.map (fun tp => Action.discoPub tp.1 tp.2) ++
      modNames.map (fun m =>
        Action.syncMod m
          (if m = "" then baseTopic else baseTopic ++ "/" ++ m)) ++
      [Action.subBirth habmTopic] ++
      [Action.wait sdelay] ++
      modNames.map Action.pubMod := by
  have hbind : ∀ m, moduleBindingTopic baseTopic m =
      if m = "" then baseTopic else baseTopic ++ "/" ++ m := by
    intro m
    by_cases h : m = ""
    · subst h; simp [moduleBindingTopic]
    · have hl : m.length > 0 := (length_pos_iff_ne_empty m).mpr h
      simp [moduleBindingTopic, h, hl]
  simp [connectEventActions, advertiseActions, hbind]

/-! ## Availability normalisation helpers -/

/-- The availability steps leave every key other than `availability_topic`
untouched. -/
theorem availabilitySteps_preserves (m : List (String × JVal)) (k : String)
    (hk : k ≠ "availability_topic") :
    lookupKey (availabilitySteps m) k = lookupKey m k := by
  unfold availabilitySteps
  by_cases h1 : !config_contains m "availability_topic" &&
      !config_contains m "availability"
  · simp only [h1, if_true]
    have hset := lookupKey_setKey_ne m k "availability_topic" (JVal.str "~")
      (Ne.symm hk)
    by_cases h2 : eqStrVal
        (lookupKey (setKey m "availability_topic" (JVal.str "~"))
          "state_topic") "~"
    · simp only [h2, if_true]
      rw [lookupKey_eraseKey_ne _ _ _ (Ne.symm hk), hset]
    · simp only [h2]
      rw [if_neg (by simp [h2]), hset]
  · simp only [h1, Bool.false_eq_true, if_false]
    by_cases h2 : eqStrVal (lookupKey m "state_topic") "~"
    · simp only [h2, if_true]
      rw [lookupKey_eraseKey_ne _ _ _ (Ne.symm hk)]
    · simp only [h2]
      rw [if_neg (by simp [h2])]

/-- When the merged config has no availability fields and its state topic
is not the base alias, the availability steps add `availability_topic: ~`. -/
theorem availabilitySteps_default (m : List (String × JVal))
    (h1 : config_contains m "availability_topic" = false)
    (h2 : config_contains m "availability" = false)
    (h3 : eqStrVal (lookupKey m "state_topic") "~" = false) :
    lookupKey (availabilitySteps m) "availability_topic" =
      some (JVal.str "~") := by
  unfold availabilitySteps
  simp only [h1, h2, Bool.not_false, Bool.and_self, if_true]
  have hst : lookupKey (setKey m "availability_topic" (JVal.str "~"))
      "state_topic" = lookupKey m "state_topic" :=
    lookupKey_setKey_ne m "state_topic" "availability_topic" _ (by decide)
  rw [hst, h3]
  simp only [Bool.false_eq_true, if_false]
  exact lookupKey_setKey_self ..

/-- When the merged config's state topic is the base alias `~`, the
availability steps remove `availability_topic`, however it got there. -/
theorem availabilitySteps_drop (m : List (String × JVal))
    (h : eqStrVal (lookupKey m "state_topic") "~" = true) :
    lookupKey (availabilitySteps m) "availability_topic" = none := by
  unfold availabilitySteps
  by_cases h1 : !config_contains m "availability_topic" &&
      !config_contains m "availability"
  · simp only [h1, if_true]
    have hst : lookupKey (setKey m "availability_topic" (JVal.str "~"))
        "state_topic" = lookupKey m "state_topic" :=
      lookupKey_setKey_ne m "state_topic" "availability_topic" _ (by decide)
    rw [hst, h]
    simp only [if_true]
    exact lookupKey_eraseKey_self ..
  · simp only [h1, Bool.false_eq_true, if_false]
    rw [h]
    simp only [if_true]
    exact lookupKey_eraseKey_self ..

/-- C4: after the base-field merge, a config with neither availability
field gets `availability_topic: ~` (kept in the result whenever the state
topic is not the base alias); a config whose state topic equals `~` ends
with no `availability_topic` at all, even one the module set explicitly;
and an empty entity config, normalised against the base config the
discovery builder constructs, comes out with `availability_topic: ~`. -/
theorem availability_normalisation (cfg base : List (String × JVal)) :
    (config_contains (mergeBase cfg base) "availability_topic" = false →
      config_contains (mergeBase cfg base) "availability" = false →
      eqStrVal (lookupKey (mergeBase cfg base) "state_topic") "~" = false →
      lookupKey (normalisePost cfg base) "availability_topic" =
        some (JVal.str "~")) ∧
    (eqStrVal (lookupKey (mergeBase cfg base) "state_topic") "~" = true →
      lookupKey (normalisePost cfg base) "availability_topic" = none) ∧
    (∀ bt n mc u o, lookupKey
        (normalisePost [] (entityBaseCfg bt n mc u o))
        "availability_topic" = some (JVal.str "~")) := by
  refine ⟨fun h1 h2 h3 => availabilitySteps_default _ h1 h2 h3,
    fun h => availabilitySteps_drop _ h, fun bt n mc u o => ?_⟩
  have h1 : lookupKey (mergeBase [] (entityBaseCfg bt n mc u o))
      "availability_topic" = none := by
    rw [mergeBase_absent [] (entityBaseCfg bt n mc u o)
      "availability_topic" rfl]; rfl
  have h2 : lookupKey (mergeBase [] (entityBaseCfg bt n mc u o))
      "availability" = none := by
    rw [mergeBase_absent [] (entityBaseCfg bt n mc u o)
      "availability" rfl]; rfl
  have h3 : lookupKey (mergeBase [] (entityBaseCfg bt n mc u o))
      "state_topic" = none := by
    rw [mergeBase_absent [] (entityBaseCfg bt n mc u o)
      "state_topic" rfl]; rfl
  exact availabilitySteps_default _ (by simp [config_contains, h1])
    (by simp [config_contains, h2]) (by simp [eqStrVal, h3])

/-- Witness for C4: a module config with a non-base state topic and no
availability fields gains the default (first conjunct); a module config
that sets `availability_topic` explicitly but whose state topic is `~`
loses it (second conjunct). -/
theorem availability_normalisation_witness :
    lookupKey (normalisePost [("state_topic", JVal.str "~/wan")] [])
      "availability_topic" = some (JVal.str "~") ∧
    lookupKey (normalisePost
      [("state_topic", JVal.str "~"),
       ("availability_topic", JVal.str "~/other")] [])
      "availability_topic" = none :=
  ⟨(availability_normalisation [("state_topic", JVal.str "~/wan")] []).1
      rfl rfl rfl,
    (availability_normalisation
      [("state_topic", JVal.str "~"),
       ("availability_topic", JVal.str "~/other")] []).2.1 rfl⟩

/-- C9: the base-field merge of `normalise_config` sets a base key only
when the entity config does not already contain it — a field the module
set explicitly is never overwritten, and an absent field receives the base
config's binding. -/
theorem normalisation_merge_no_overwrite (cfg base : List (String × JVal)) :
    (∀ k v, lookupKey cfg k = some v →
      lookupKey (mergeBase cfg base) k = some v) ∧
    (∀ k, lookupKey cfg k = none →
      lookupKey (mergeBase cfg base) k = lookupKey base k) :=
  ⟨fun k v h => mergeBase_preserves cfg base k v h,
   fun k h => mergeBase_absent cfg base k h⟩

/-- Witness for C9: the spec's example — module sets `state_topic: ~/x`,
base holds `state_topic: ~`; the merge keeps `~/x`. -/
theorem normalisation_merge_no_overwrite_witness :
    lookupKey (mergeBase [("state_topic", JVal.str "~/x")]
      [("state_topic", JVal.str "~")]) "state_topic" =
      some (JVal.str "~/x") :=
  (normalisation_merge_no_overwrite [("state_topic", JVal.str "~/x")]
    [("state_topic", JVal.str "~")]).1 "state_topic" (JVal.str "~/x") rfl

/-! ## C6: precedence of the global period (corrected) -/

/-- Counterexample to C6 as stated: with a module-specific
`period: "2m"` and a global `period: "5m"`, the module's config stack
resolves `period` to "2m" — the module-specific value, not the global
override the claim says takes precedence (`Append` adds the global getter
at the lowest priority of the stack). -/
theorem global_period_precedence_counterexample :
    stackLookup (moduleConfigStack [("period", "2m")] (some "5m"))
      "period" = some "2m" ∧ ("2m" : String) ≠ "5m" := by
  constructor
  · rfl
  · decide

/-- C6 amended: the global period, when set and non-empty, is appended to
each module's configuration as a lowest-priority fallback — the
module-specific configuration takes precedence over it, it applies when
the module sets no period, and it takes precedence over the defaults a
module factory appends after it; modules are instantiated exactly in the
listed order. -/
theorem module_resolution_order_and_fallback (sect : Getter) (p : String)
    (hp : p.length > 0) :
    (∀ v, getterLookup sect "period" = some v →
      stackLookup (moduleConfigStack sect (some p)) "period" = some v) ∧
    (getterLookup sect "period" = none →
      stackLookup (moduleConfigStack sect (some p)) "period" = some p) ∧
    (∀ defaults : Getter, getterLookup sect "period" = none →
      stackLookup (factoryConfigStack sect (some p) defaults) "period" =
        some p) ∧
    (∀ (names : List String) (known : String → Bool)
        (sections : String → Getter) (gp : Option String)
        (l : List (String × List Getter)),
      resolveModules names known sections gp = some l →
        l.map Prod.fst = names) := by
  have hstack : moduleConfigStack sect (some p) =
      [sect, [("period", p)]] := by
    simp [moduleConfigStack, hp]
  refine ⟨?_, ?_, ?_, ?_⟩
  · intro v hv; rw [hstack]; simp [stackLookup, hv]
  · intro hv; rw [hstack]; simp [stackLookup, hv, getterLookup]
  · intro defaults hv
    rw [show factoryConfigStack sect (some p) defaults =
      moduleConfigStack sect (some p) ++ [defaults] from rfl, hstack]
    simp [stackLookup, hv, getterLookup]
  · intro names known sections gp
    induction names with
    | nil =>
      intro l h
      simp [resolveModules] at h
      simp [← h]
    | cons n rest ih =>
      intro l h
      by_cases hn : known n
      · simp only [resolveModules, hn, if_true, Option.map_eq_some'] at h
        obtain ⟨tail, htail, hl⟩ := h
        subst hl
        simp [ih tail htail]
      · simp [resolveModules, hn] at h

/-- Witness for C6's amended theorem: the wan module with no period of its
own and a global period of "5m" resolves to "5m"; the listed modules
instantiate in listed order. -/
theorem module_resolution_order_and_fallback_witness :
    stackLookup (moduleConfigStack [("ip.period", "30m")] (some "5m"))
      "period" = some "5m" :=
  (module_resolution_order_and_fallback [("ip.period", "30m")] "5m"
    (by decide)).2.1 rfl

/-! ## C10: the entity config map is mutated by normalisation (corrected) -/

/-- Counterexample to C10 as stated: running `normalise_config` on the
root module's `status` entity config (state topic `~`) against a base
config holding the base-topic alias leaves the map changed — the merge
writes the alias key `~` into the module's own map. -/
theorem entity_config_mutated :
    (normalise_config [("state_topic", JVal.str "~")]
      [("~", JVal.str "dunnart/host")]).1 ≠
      [("state_topic", JVal.str "~")] := by
  intro h
  have h2 : true = false :=
    congrArg (fun m => config_contains m "~") h
  exact Bool.noConfusion h2

/-- C10 amended: the Discovery Builder consumes each EntityConfig
immediately, but `normalise_config` mutates the config map in place: base
fields are merged into it and the availability default is added or the
self-referencing availability topic removed, so the map afterwards is the
normalised map rather than what the module returned.  Every field the
module set other than `availability_topic` survives with its value. -/
theorem entity_config_mutation_preserves_module_fields
    (cfg base : List (String × JVal)) (k : String) (v : JVal)
    (hk : k ≠ "availability_topic") (h : lookupKey cfg k = some v) :
    lookupKey (normalise_config cfg base).1 k = some v := by
  show lookupKey (normalisePost cfg base) k = some v
  unfold normalisePost
  rw [availabilitySteps_preserves _ _ hk]
  exact mergeBase_preserves cfg base k v h

/-- Witness for C10's amended theorem at the `status` entity's `name`
field. -/
theorem entity_config_mutation_preserves_module_fields_witness :
    lookupKey (normalise_config [("name", JVal.str "status")]
      [("~", JVal.str "dunnart/host")]).1 "name" =
      some (JVal.str "status") :=
  entity_config_mutation_preserves_module_fields
    [("name", JVal.str "status")] [("~", JVal.str "dunnart/host")]
    "name" (JVal.str "status") (by decide) rfl

/-! ## C5: the discovery mapping is a function of the module set -/

theorem lookupKeyS_setKeyS (m : List (String × String)) (k v t : String) :
    lookupKeyS (setKeyS m k v) t =
      if k = t then some v else lookupKeyS m t := by
  induction m with
  | nil =>
    by_cases h : k = t <;> simp [setKeyS, lookupKeyS, h]
  | cons kv rest ih =>
    by_cases hk : kv.1 = k
    · subst hk
      by_cases ht : kv.1 = t <;> simp [setKeyS, lookupKeyS, ht]
    · by_cases ht : kv.1 = t
      · subst ht
        have hkt : ¬k = kv.1 := fun hh => hk hh.symm
        simp [setKeyS, lookupKeyS, hk, hkt]
      · simp [setKeyS, lookupKeyS, hk, ht, ih]

theorem lookupKeyS_append (a b : List (String × String)) (t : String) :
    lookupKeyS (a ++ b) t =
      match lookupKeyS a t with
      | some v => some v
      | none => lookupKeyS b t := by
  induction a with
  | nil => simp [lookupKeyS]
  | cons kv rest ih =>
    by_cases h : kv.1 = t <;> simp [lookupKeyS, h, ih]

theorem lookupKeyS_eq_none_iff (l : List (String × String)) (t : String) :
    lookupKeyS l t = none ↔ t ∉ l.map Prod.fst := by
  induction l with
  | nil => simp [lookupKeyS]
  | cons kv rest ih =>
    simp only [lookupKeyS, List.map_cons, List.mem_cons]
    by_cases h : kv.1 = t
    · subst h; simp
    · simp [h, ih, Ne.symm h]

theorem lookupKeyS_eq_some_iff_mem (l : List (String × String))
    (t v : String) (hnd : (l.map Prod.fst).Nodup) :
    lookupKeyS l t = some v ↔ (t, v) ∈ l := by
  induction l with
  | nil => simp [lookupKeyS]
  | cons kv rest ih =>
    obtain ⟨hk, hrest⟩ := List.nodup_cons.mp hnd
    by_cases h : kv.1 = t
    · simp only [lookupKeyS, if_pos h, List.mem_cons]
      constructor
      · intro hv
        exact Or.inl (by rw [← h, ← Option.some.inj hv])
      · intro hv
        rcases hv with hv | hv
        · rw [← hv]
        · exact absurd (List.mem_map_of_mem Prod.fst hv) (h ▸ hk)
    · simp only [lookupKeyS, if_neg h, List.mem_cons]
      rw [ih hrest]
      constructor
      · intro hv; exact Or.inr hv
      · intro hv
        rcases hv with hv | hv
        · exact absurd (congrArg Prod.fst hv).symm h
        · exact hv

/-- With no duplicate keys, lookup is insensitive to reversal (first and
last occurrence coincide). -/
theorem lookupKeyS_reverse (l : List (String × String)) (t : String)
    (hnd : (l.map Prod.fst).Nodup) :
    lookupKeyS l.reverse t = lookupKeyS l t := by
  have hndr : (l.reverse.map Prod.fst).Nodup := by
    rw [List.map_reverse]
    exact List.nodup_reverse.mpr hnd
  cases h : lookupKeyS l t with
  | some v =>
    exact (lookupKeyS_eq_some_iff_mem _ _ _ hndr).mpr
      (List.mem_reverse.mpr ((lookupKeyS_eq_some_iff_mem _ _ _ hnd).mp h))
  | none =>
    refine (lookupKeyS_eq_none_iff _ _).mpr ?_
    have := (lookupKeyS_eq_none_iff _ _).mp h
    rw [List.map_reverse]
    simpa using this

/-- Folding entries into the `ents` map with overwriting insertion gives
the last binding for a key; with an empty start map, that is the reverse
lookup. -/
theorem foldl_setKeyS_lookup (l : List (String × String))
    (acc : List (String × String)) (t : String) :
    lookupKeyS (l.foldl (fun m tp => setKeyS m tp.1 tp.2) acc) t =
      match lookupKeyS l.reverse t with
      | some v => some v
      | none => lookupKeyS acc t := by
  induction l generalizing acc with
  | nil => simp [lookupKeyS]
  | cons kv rest ih =>
    rw [List.foldl_cons, ih (setKeyS acc kv.1 kv.2)]
    rw [show (kv :: rest).reverse = rest.reverse ++ [kv] from by simp]
    rw [lookupKeyS_append]
    cases h : lookupKeyS rest.reverse t with
    | some v => simp
    | none =>
      simp only
      rw [lookupKeyS_setKeyS]
      by_cases hk : kv.1 = t <;> simp [lookupKeyS, hk]

/-- With no duplicate topics, the built `ents` map looks up exactly as the
generated entry list does. -/
theorem buildMap_lookup (l : List (String × String)) (t : String)
    (hnd : (l.map Prod.fst).Nodup) :
    lookupKeyS (l.foldl (fun m tp => setKeyS m tp.1 tp.2) []) t =
      lookupKeyS l t := by
  rw [foldl_setKeyS_lookup, lookupKeyS_reverse l t hnd]
  cases h : lookupKeyS l t <;> simp [lookupKeyS]

/-- C5: the discovery topic-to-payload mapping depends only on the module
set (together with node id, unique id, MAC, base topic and prefix), not on
the iteration order of the module map: two builds over permuted module
lists — in particular two builds over the identical list — resolve every
topic to the identical payload bytes, provided the generated topics are
distinct (they are for the registered modules, whose unique ids embed the
module and entity names). -/
theorem discovery_mapping_deterministic
    (pfx uid nodeId baseTopic mac : String)
    (mods1 mods2 : List DiscoModule) (hperm : mods1.Perm mods2)
    (hnd : ((discoveryEntries pfx uid nodeId baseTopic mac mods1).map
      Prod.fst).Nodup) :
    ∀ t, lookupKeyS (newDiscovery pfx uid nodeId baseTopic mac mods1) t =
      lookupKeyS (newDiscovery pfx uid nodeId baseTopic mac mods2) t := by
  intro t
  unfold newDiscovery
  by_cases hp : pfx.length > 0
  · simp only [hp, if_true]
    have hpe : (discoveryEntries pfx uid nodeId baseTopic mac mods1).Perm
        (discoveryEntries pfx uid nodeId baseTopic mac mods2) :=
      List.Perm.flatten (List.Perm.map _ hperm)
    have hk2 : ((discoveryEntries pfx uid nodeId baseTopic mac mods2).map
        Prod.fst).Nodup := (hpe.map Prod.fst).nodup hnd
    rw [buildMap_lookup _ t hnd, buildMap_lookup _ t hk2]
    cases h : lookupKeyS (discoveryEntries pfx uid nodeId baseTopic mac
        mods1) t with
    | some v =>
      exact ((lookupKeyS_eq_some_iff_mem _ _ _ hk2).mpr
        (hpe.mem_iff.mp ((lookupKeyS_eq_some_iff_mem _ _ _ hnd).mp h))).symm
    | none =>
      refine ((lookupKeyS_eq_none_iff _ _).mpr ?_).symm
      have hm := (lookupKeyS_eq_none_iff _ _).mp h
      intro hc
      exact hm (((hpe.map Prod.fst).mem_iff).mpr hc)
  · simp only [hp, Bool.false_eq_true, if_false]

/-- The topics of the generated discovery entries, without their payloads
(used to discharge the distinct-topics side condition by evaluation). -/
def discoveryTopics (pfx uid : String) (mods : List DiscoModule) :
    List String :=
  (mods.map (fun m => m.entities.map
    (fun e => entityTopic pfx e.cls (entityUid uid m.name e.name)))).flatten

theorem discoveryEntries_topics (pfx uid nodeId baseTopic mac : String)
    (mods : List DiscoModule) :
    (discoveryEntries pfx uid nodeId baseTopic mac mods).map Prod.fst =
      discoveryTopics pfx uid mods := by
  simp only [discoveryEntries, discoveryTopics, List.map_flatten,
    List.map_map]
  apply congrArg List.flatten
  apply List.map_congr_left
  intro m _
  simp only [Function.comp_apply, List.map_map]
  rfl

/-- Witness for C5: the actual registered module set — the root module and
the WAN module with both entities — in its two iteration orders, resolved
at the WAN IP discovery topic. -/
theorem discovery_mapping_deterministic_witness :
    lookupKeyS (newDiscovery "homeassistant" "dnrt-aabbcc" "node"
        "dunnart/node" "aa:bb:cc"
        [⟨"", dunnartEntities⟩, ⟨"wan", wanEntities true true⟩])
      "homeassistant/sensor/dnrt-aabbcc-wan-ip/config" =
    lookupKeyS (newDiscovery "homeassistant" "dnrt-aabbcc" "node"
        "dunnart/node" "aa:bb:cc"
        [⟨"wan", wanEntities true true⟩, ⟨"", dunnartEntities⟩])
      "homeassistant/sensor/dnrt-aabbcc-wan-ip/config" :=
  discovery_mapping_deterministic "homeassistant" "dnrt-aabbcc" "node"
    "dunnart/node" "aa:bb:cc"
    [⟨"", dunnartEntities⟩, ⟨"wan", wanEntities true true⟩]
    [⟨"wan", wanEntities true true⟩, ⟨"", dunnartEntities⟩]
    (List.Perm.swap _ _ _)
    (by rw [discoveryEntries_topics]; decide)
    "homeassistant/sensor/dnrt-aabbcc-wan-ip/config"

end Dunnart

